import Mathlib

/-!
Shallow embedding of the Nix progress-bar core (src/libmain/progress-bar.cc):
the activity registry (`State`), its mutation entry points (`startActivity`,
`stopActivity`, `result`), the aggregation function (`getActivityStats`) and
the progress-bar segment computation of `updateStatusLine`'s `renderBar`.

Modelling conventions:
  - `uint64_t` counters are modelled as `ℕ`.  C++ `-` on `uint64_t` wraps;
    `ℕ` subtraction truncates.  The two agree whenever no underflow occurs,
    and the underflow-freedom of every subtraction the code performs is
    itself established below (see the expected-sum invariant), so no claim
    depends on wraparound behaviour.
  - `assert(...)` failures (the `getS`/`getI` field accessors and the id
    lookup in `ProgressBar::result`) are modelled by `Option`: `none` is a
    failed assertion, `some s` a normal return.
  - `std::map`/`std::list` pairs keyed by `ActivityId` are modelled as
    association lists plus an id list mirroring the `its` key set;
    `std::map::emplace` inserts only when the key is absent, which the
    embedding reproduces.
  - `activitiesByType` (a `std::map` whose `operator[]` default-constructs
    missing entries) is modelled as a total function with default value;
    a missing C++ entry and a default-valued entry are indistinguishable.
  - The concurrency wrapper (locks, condition variables, threads) and the
    terminal I/O of `draw` are outside the registry model; of `draw`'s
    effects only the `haveUpdate := false` write on the shared state is kept
    (`logDraw`), which is what the dirty-flag claims are about.
-/

/-- Identifier `ActivityId`: opaque caller-assigned identifier (0 is the root sentinel). -/
abbrev ActivityId := Nat

/-- The closed activity-kind enumeration (external `logging.hh`). -/
inductive ActivityType where
  | actUnknown
  | actCopyPath
  | actFileTransfer
  | actRealise
  | actCopyPaths
  | actBuilds
  | actBuild
  | actOptimiseStore
  | actVerifyPaths
  | actSubstitute
  | actQueryPathInfo
  | actPostBuildHook
  | actBuildWaiting
  | actEvaluate
deriving DecidableEq, Repr

/-- Modelled from the spec: the numeric codes carried by `resSetExpected`
events for each activity kind come from the external protocol header
(`logging.hh`, not under src/); only injectivity of the encoding is relevant
to the claims. -/
def actTypeCode : ActivityType → Nat
  | .actUnknown => 0
  | .actCopyPath => 100
  | .actFileTransfer => 101
  | .actRealise => 102
  | .actCopyPaths => 103
  | .actBuilds => 104
  | .actBuild => 105
  | .actOptimiseStore => 106
  | .actVerifyPaths => 107
  | .actSubstitute => 108
  | .actQueryPathInfo => 109
  | .actPostBuildHook => 110
  | .actBuildWaiting => 111
  | .actEvaluate => 112

/-- The inverse of `actTypeCode`; the C++ code casts the integer field
directly to the enum, producers only send valid codes. -/
def actTypeOfCode (n : Nat) : Option ActivityType :=
  if n = 0 then some .actUnknown
  else if n = 100 then some .actCopyPath
  else if n = 101 then some .actFileTransfer
  else if n = 102 then some .actRealise
  else if n = 103 then some .actCopyPaths
  else if n = 104 then some .actBuilds
  else if n = 105 then some .actBuild
  else if n = 106 then some .actOptimiseStore
  else if n = 107 then some .actVerifyPaths
  else if n = 108 then some .actSubstitute
  else if n = 109 then some .actQueryPathInfo
  else if n = 110 then some .actPostBuildHook
  else if n = 111 then some .actBuildWaiting
  else if n = 112 then some .actEvaluate
  else none

/-- The result-kind enumeration of `ProgressBar::result`. -/
inductive ResultType where
  | resFileLinked
  | resBuildLogLine
  | resPostBuildLogLine
  | resUntrustedPath
  | resCorruptedPath
  | resSetPhase
  | resProgress
  | resSetExpected
  | resExpectBuild
  | resUnexpectBuild
  | resExpectSubstitution
  | resUnexpectSubstitution
deriving DecidableEq, Repr

/-- Payload field `Logger::Field`: a tagged string-or-integer event payload field. -/
inductive LogField where
  | tString (s : String)
  | tInt (i : Nat)
deriving DecidableEq, Repr

/-- Accessor `getS`: asserts the index is in bounds and the field is a string. -/
def getS (fields : List LogField) (n : Nat) : Option String :=
  match fields.get? n with
  | some (.tString s) => some s
  | _ => none

/-- Accessor `getI`: asserts the index is in bounds and the field is an integer. -/
def getI (fields : List LogField) (n : Nat) : Option Nat :=
  match fields.get? n with
  | some (.tInt i) => some i
  | _ => none

/-- Modelled from the spec: the external `baseNameOf` helper (libutil, not
under src/) yields the final path component.  The claims only apply it to
strings without a slash, where it is the identity. -/
def baseNameOf (cs : List Char) : List Char :=
  (cs.reverse.takeWhile (fun c => c != '/')).reverse

/-- Helper `storePathToName`: everything after the first dash of the base name,
or the empty string when there is no dash (`base.substr(0, 0)`). -/
def storePathToName (cs : List Char) : List Char :=
  let base := baseNameOf cs
  if base.contains '-' then (base.dropWhile (fun c => c != '-')).drop 1 else []

/-- Model of `hasSuffix(name, ".drv") ? name.substr(0, name.size() - 4) : name`. -/
def dropDrvExt (name : List Char) : List Char :=
  if [ '.', 'd', 'r', 'v' ].isSuffixOf name then name.take (name.length - 4) else name

/-- The `actBuild` label of `startActivity` (ANSI color escapes omitted:
the claims compare labels with escape codes ignored). -/
def buildLabel (path machine : String) (curRound nrRounds : Nat) : String :=
  let name := dropDrvExt (storePathToName path.toList)
  String.mk name
    ++ (if machine = "" then "" else " on " ++ machine)
    ++ (if nrRounds = 1 then "" else
          " (round " ++ toString curRound ++ "/" ++ toString nrRounds ++ ")")

/-- The `actSubstitute` label; the C++ ternary on the substituter name picks
between two identical format strings, so it is a single case here. -/
def substituteLabel (path sub : String) : String :=
  String.mk (storePathToName path.toList) ++ " from " ++ sub

/-- The `actPostBuildHook` label. -/
def postBuildLabel (path : String) : String :=
  "post-build " ++ String.mk (dropDrvExt (storePathToName path.toList))

/-- The `actQueryPathInfo` label. -/
def queryLabel (path host : String) : String :=
  "querying " ++ String.mk (storePathToName path.toList) ++ " on " ++ host

/-- Modelled from the spec: the external `chomp` helper (libutil) trims
trailing whitespace. -/
def chomp (s : String) : String :=
  String.mk ((s.toList.reverse.dropWhile
    (fun c => c == ' ' || c == '\n' || c == '\r' || c == '\t')).reverse)

/-- Record `ActInfo`: one open work unit.  The `startTime` field (wall-clock, used
only for the elapsed-seconds display) and the `name` field (derived via the
external `DrvName` splitter and used only in streamed log-line prefixes) are
not modelled; no claim mentions them. -/
structure ActInfo where
  s : String := ""
  lastLine : String := ""
  phase : Option String := none
  type : ActivityType := .actUnknown
  done : Nat := 0
  expected : Nat := 0
  running : Nat := 0
  failed : Nat := 0
  /-- `std::map<ActivityType, uint64_t>`: total function with default 0;
  untouched keys and absent C++ entries both read as 0. -/
  expectedByType : ActivityType → Nat := fun _ => 0
  visible : Bool := true
  ignored : Bool := false
  parent : ActivityId := 0
  buildsRemaining : List String := []
  substitutionsRemaining : List String := []

/-- Record `ActivitiesByType`: the per-kind rollup record; `its` holds the ids of
the currently-open units of the kind (the C++ map's key set). -/
structure ActivitiesByType where
  its : List ActivityId := []
  done : Nat := 0
  expected : Nat := 0
  failed : Nat := 0
deriving DecidableEq, Repr

/-- The result record of `getActivityStats`. -/
structure ActivityStats where
  done : Nat := 0
  expected : Nat := 0
  running : Nat := 0
  failed : Nat := 0
  left : Nat := 0
deriving DecidableEq, Repr

/-- The registry part of `ProgressBar::State`.  `activities` is the
`std::list<ActInfo>` in insertion order, each node tagged with the id under
which it was emplaced; `its` is the key set of the flat id map (which in C++
stores iterators into the list; lookup resolves to the first list node with
that key, matching `emplace`'s keep-first semantics).  The status-line map
and `prevStatusLines` belong to the renderer and are not modelled. -/
structure State where
  activities : List (ActivityId × ActInfo) := []
  its : List ActivityId := []
  activitiesByType : ActivityType → ActivitiesByType := fun _ => {}
  filesLinked : Nat := 0
  bytesLinked : Nat := 0
  corruptedPaths : Nat := 0
  untrustedPaths : Nat := 0
  active : Bool := true
  haveUpdate : Bool := true

/-- The freshly constructed registry (interactive case: `active = true`). -/
def initState : State := {}

/-- First association for a key, like following the stored map iterator. -/
def lookupAct : List (ActivityId × ActInfo) → ActivityId → Option ActInfo
  | [], _ => none
  | p :: ps, act => if p.1 = act then some p.2 else lookupAct ps act

/-- Erase the first association for a key (`activities.erase(iterator)`). -/
def eraseActFirst : List (ActivityId × ActInfo) → ActivityId → List (ActivityId × ActInfo)
  | [], _ => []
  | p :: ps, act => if p.1 = act then ps else p :: eraseActFirst ps act

/-- Mutate the first association for a key in place (`*iterator = ...`). -/
def modifyActFirst : List (ActivityId × ActInfo) → ActivityId → (ActInfo → ActInfo) →
    List (ActivityId × ActInfo)
  | [], _, _ => []
  | p :: ps, act, f => if p.1 = act then (p.1, f p.2) :: ps else p :: modifyActFirst ps act f

/-- Model of `std::map::emplace` on an id key set: insert only when absent. -/
def emplaceId (l : List ActivityId) (act : ActivityId) : List ActivityId :=
  if act ∈ l then l else act :: l

/-- Model of `state->its.find(act)`: resolve an id through the flat index. -/
def findAct (s : State) (act : ActivityId) : Option ActInfo :=
  if act ∈ s.its then lookupAct s.activities act else none

/-- Pointwise update of the per-kind rollup map. -/
def updBT (bt : ActivityType → ActivitiesByType) (t : ActivityType)
    (g : ActivitiesByType → ActivitiesByType) : ActivityType → ActivitiesByType :=
  fun u => if u = t then g (bt u) else bt u

/-- Model of `ProgressBar::update`: mark dirty (the condition-variable signal that
accompanies it has no registry-visible effect). -/
def update (s : State) : State := { s with haveUpdate := true }

/-- Registry-visible effect of `log` on an active dashboard: `draw` clears
the dirty flag (`state.haveUpdate = false`); on an inactive one the line
goes straight to stderr and the registry is untouched. -/
def logDraw (s : State) : State := if s.active then { s with haveUpdate := false } else s

/-- The fresh `ActInfo()` node as populated just after `emplace_back`. -/
def baseInfo (label : String) (t : ActivityType) (parent : ActivityId) : ActInfo :=
  { s := label, type := t, parent := parent }

/-- Model of `ProgressBar::hasAncestor`, fuelled: the C++ loop terminates exactly on
acyclic parent chains (a spec invariant); `s.its.length + 1` steps suffice
for any acyclic chain because each visited id is a distinct open unit. -/
def hasAncestorFuel (s : State) (t : ActivityType) : Nat → ActivityId → Bool
  | 0, _ => false
  | Nat.succ fuel, act =>
    if act = 0 then false
    else
      match findAct s act with
      | none => false
      | some a => if a.type = t then true else hasAncestorFuel s t fuel a.parent

/-- Wrapper `hasAncestor(state, type, act)`. -/
def hasAncestor (s : State) (t : ActivityType) (act : ActivityId) : Bool :=
  hasAncestorFuel s t (s.its.length + 1) act

/-- State after the optional initial `log` and the three emplaces of
`startActivity` (list node appended, flat index, per-kind index), before the
kind-specific mutations of the new node. -/
def startBase (verbosity lvl : Nat) (s : State) (act : ActivityId) (t : ActivityType)
    (label : String) (parent : ActivityId) : State :=
  let s0 := if lvl ≤ verbosity ∧ label ≠ "" ∧ t ≠ .actBuildWaiting then logDraw s else s
  { s0 with
    activities := s0.activities ++ [(act, baseInfo label t parent)],
    its := emplaceId s0.its act,
    activitiesByType := updBT s0.activitiesByType t
      (fun e => { e with its := emplaceId e.its act }) }

/-- The kind-specific label/ignored mutations of `startActivity`, applied to
the freshly inserted node; `s1` is the state the `hasAncestor` walks read
(the node is already indexed, as in the C++ mutation order). -/
def startDetail (s1 : State) (t : ActivityType) (fields : List LogField)
    (parent : ActivityId) (i : ActInfo) : Option ActInfo :=
  match t with
  | .actBuild => do
      let path ← getS fields 0
      let machine ← getS fields 1
      let curRound ← getI fields 2
      let nrRounds ← getI fields 3
      pure { i with s := buildLabel path machine curRound nrRounds }
  | .actSubstitute => do
      let path ← getS fields 0
      let sub ← getS fields 1
      pure { i with s := substituteLabel path sub }
  | .actPostBuildHook => do
      let path ← getS fields 0
      pure { i with s := postBuildLabel path }
  | .actQueryPathInfo => do
      let path ← getS fields 0
      let host ← getS fields 1
      pure { i with s := queryLabel path host }
  | .actFileTransfer => do
      let f0 ← getS fields 0
      let ign := hasAncestor s1 .actCopyPath parent || hasAncestor s1 .actQueryPathInfo parent
      pure { i with s := f0, ignored := ign }
  | _ => pure i

/-- The visibility rule of `startActivity`. -/
def applyVisibility (s1 : State) (t : ActivityType) (parent : ActivityId) (i : ActInfo) : ActInfo :=
  if t = .actFileTransfer
      ∨ (t = .actCopyPath ∧ hasAncestor s1 .actSubstitute parent = true)
      ∨ t = .actBuild
      ∨ t = .actSubstitute
  then { i with visible := false } else i

/-- Model of `ProgressBar::startActivity`.  The C++ code mutates the appended node in
place through its iterator; here the finished record replaces the appended
placeholder (the last list node). -/
def startActivity (verbosity lvl : Nat) (s : State) (act : ActivityId) (t : ActivityType)
    (label : String) (fields : List LogField) (parent : ActivityId) : Option State := do
  let s1 := startBase verbosity lvl s act t label parent
  let i1 ← startDetail s1 t fields parent (baseInfo label t parent)
  let i2 := applyVisibility s1 t parent i1
  pure (update { s1 with activities := s1.activities.dropLast ++ [(act, i2)] })

/-- The per-kind rollup updates performed when closing unit `a`: fold its
terminal done/failed into its own kind (unless ignored), retract its
`expectedByType` contributions, and drop it from its kind's index.  The C++
retraction loop runs over the entries of `expectedByType`; subtracting the
default 0 for untouched kinds is identical, so the model subtracts
pointwise over all kinds. -/
def stopFold (a : ActInfo) (act : ActivityId)
    (bt : ActivityType → ActivitiesByType) : ActivityType → ActivitiesByType :=
  fun u =>
    let e := bt u
    let e := if a.ignored then e else
      { e with
        done := if u = a.type then e.done + a.done else e.done,
        failed := if u = a.type then e.failed + a.failed else e.failed,
        expected := e.expected - a.expectedByType u }
    if u = a.type then { e with its := e.its.erase act } else e

/-- Model of `ProgressBar::stopActivity`: fold the closed unit into the rollups via
`stopFold` and drop it from all indices; unknown ids fall through to the
final `update`. -/
def stopActivity (s : State) (act : ActivityId) : State :=
  let s1 :=
    match findAct s act with
    | none => s
    | some a =>
      { s with
        activitiesByType := stopFold a act s.activitiesByType,
        activities := eraseActFirst s.activities act,
        its := s.its.erase act }
  update s1

/-- Model of `std::set<Path>::insert`. -/
def insertPath (l : List String) (p : String) : List String :=
  if p ∈ l then l else p :: l

/-- Model of `ProgressBar::result`.  The leading `assert(i != state->its.end())`
makes an unknown id a failure (`none`).  `printBuildLogs` is the global
toggle read by the log-line branch. -/
def result (printBuildLogs : Bool) (s : State) (act : ActivityId) (rt : ResultType)
    (fields : List LogField) : Option State := do
  let a ← findAct s act
  match rt with
  | .resFileLinked => do
      let n ← getI fields 0
      pure (update { s with filesLinked := s.filesLinked + 1, bytesLinked := s.bytesLinked + n })
  | .resBuildLogLine => do
      let raw ← getS fields 0
      let lastLine := chomp raw
      if lastLine = "" then pure s
      else
        let acts := modifyActFirst s.activities act (fun x => { x with lastLine := lastLine })
        let s2 := { s with activities := acts }
        if printBuildLogs then pure (logDraw s2) else pure (update s2)
  | .resPostBuildLogLine => do
      let raw ← getS fields 0
      let lastLine := chomp raw
      if lastLine = "" then pure s
      else
        let acts := modifyActFirst s.activities act (fun x => { x with lastLine := lastLine })
        let s2 := { s with activities := acts }
        if printBuildLogs then pure (logDraw s2) else pure (update s2)
  | .resUntrustedPath => pure (update { s with untrustedPaths := s.untrustedPaths + 1 })
  | .resCorruptedPath => pure (update { s with corruptedPaths := s.corruptedPaths + 1 })
  | .resSetPhase => do
      let p ← getS fields 0
      let acts := modifyActFirst s.activities act (fun x => { x with phase := some p })
      pure (update { s with activities := acts })
  | .resProgress =>
      if a.ignored then pure s
      else do
        let d ← getI fields 0
        let e ← getI fields 1
        let r ← getI fields 2
        let f ← getI fields 3
        let acts := modifyActFirst s.activities act
          (fun x => { x with done := d, expected := e, running := r, failed := f })
        pure (update { s with activities := acts })
  | .resSetExpected =>
      if a.ignored then pure s
      else do
        let code ← getI fields 0
        let t ← actTypeOfCode code
        let v ← getI fields 1
        let old := a.expectedByType t
        let acts := modifyActFirst s.activities act (fun x =>
          { x with expectedByType := fun u => if u = t then v else x.expectedByType u })
        let bt := updBT s.activitiesByType t (fun e => { e with expected := e.expected - old + v })
        pure (update { s with activities := acts, activitiesByType := bt })
  | .resExpectBuild => do
      let p ← getS fields 0
      let acts := modifyActFirst s.activities act
        (fun x => { x with buildsRemaining := insertPath x.buildsRemaining p })
      pure { s with activities := acts }
  | .resUnexpectBuild => do
      let p ← getS fields 0
      let acts := modifyActFirst s.activities act
        (fun x => { x with buildsRemaining := x.buildsRemaining.erase p })
      pure { s with activities := acts }
  | .resExpectSubstitution => do
      let p ← getS fields 0
      let acts := modifyActFirst s.activities act
        (fun x => { x with substitutionsRemaining := insertPath x.substitutionsRemaining p })
      pure { s with activities := acts }
  | .resUnexpectSubstitution => do
      let p ← getS fields 0
      let acts := modifyActFirst s.activities act
        (fun x => { x with substitutionsRemaining := x.substitutionsRemaining.erase p })
      pure { s with activities := acts }

/-- One iteration of the accumulation loop in `getActivityStats`. -/
def statsStep (s : State) (st : ActivityStats) (act : ActivityId) : ActivityStats :=
  match findAct s act with
  | none => st
  | some j =>
    if j.ignored then st
    else
      { st with
        done := st.done + j.done,
        expected := st.expected + j.expected,
        running := st.running + j.running,
        failed := st.failed + j.failed,
        left := st.left + (if j.done < j.expected then j.expected - j.done else 0) }

/-- Model of `ProgressBar::getActivityStats`: note the initialiser
`.expected = act.done` — the rollup's cumulative `done` seeds the expected
sum before the open units are added. -/
def getActivityStats (s : State) (t : ActivityType) : ActivityStats :=
  let actT := s.activitiesByType t
  let st0 : ActivityStats :=
    { done := actT.done, expected := actT.done, running := 0, failed := actT.failed, left := 0 }
  let st := actT.its.foldl (statsStep s) st0
  { st with expected := max st.expected actT.expected }

/-- Units of a kind visible to the aggregation loop: the kind's open-unit
ids resolved through the flat index, ignored units dropped. -/
def unitsOf (s : State) (l : List ActivityId) : List ActInfo :=
  (l.filterMap (findAct s)).filter (fun a => !a.ignored)

/-- Sum of a counter over the resolved non-ignored units of an id list. -/
def sumOf (s : State) (l : List ActivityId) (f : ActInfo → Nat) : Nat :=
  ((unitsOf s l).map f).sum

/-- Reference rollup transcribed from the claim's words (C1), for comparison
with `getActivityStats`: its `expected` is
`max(sum of open units' expected, directly-set expected)`, with no other
term. -/
def rollupSpec (s : State) (t : ActivityType) : ActivityStats :=
  let actT := s.activitiesByType t
  { done := actT.done + sumOf s actT.its (fun a => a.done),
    expected := max (sumOf s actT.its (fun a => a.expected)) actT.expected,
    running := sumOf s actT.its (fun a => a.running),
    failed := actT.failed + sumOf s actT.its (fun a => a.failed),
    left := sumOf s actT.its (fun a => a.expected - a.done) }

/-- Model of `min((double) num / expected, 1.0)` in `renderBar`, in exact rational
arithmetic (IEEE double rounding is monotone, so the ordering facts proved
below transfer to the C++ computation). -/
def barFrac (num expected : Nat) : ℚ :=
  min ((num : ℚ) / (expected : ℚ)) 1

/-- Model of `size_t chars = barLength * pct` with `barLength = 70`: truncation of a
nonnegative double to an integer is `floor`. -/
def barChars (p : ℚ) : Nat :=
  (Int.floor ((70 : ℚ) * p)).toNat

/-- The three cumulative segment boundaries of `renderBar` (failed,
failed+done, failed+done+running) after clamping `expected` to at least 1;
the rendered bar is red up to the first, green to the second, yellow to the
third and dim for the remaining `70 - chars3` cells. -/
def renderBarBounds (done failed running expected : Nat) : Nat × Nat × Nat :=
  let e := max expected 1
  (barChars (barFrac failed e),
   barChars (barFrac (failed + done) e),
   barChars (barFrac (failed + done + running) e))

/-- Configuration read by the entry points: the global verbosity and the
`printBuildLogs` toggle. -/
structure Cfg where
  verbosity : Nat := 0
  printBuildLogs : Bool := false

/-- One registry mutation call, as issued by a producer thread. -/
inductive Call where
  | start (act : ActivityId) (lvl : Nat) (t : ActivityType) (label : String)
      (fields : List LogField) (parent : ActivityId)
  | stop (act : ActivityId)
  | res (act : ActivityId) (rt : ResultType) (fields : List LogField)

/-- Dispatch one call to its entry point. -/
def step (cfg : Cfg) (s : State) : Call → Option State
  | .start act lvl t label fields parent =>
      startActivity cfg.verbosity lvl s act t label fields parent
  | .stop act => some (stopActivity s act)
  | .res act rt fields => result cfg.printBuildLogs s act rt fields

/-- The spec's id-uniqueness precondition: a start-unit call must use an id
that is not currently open. -/
def freshOk (s : State) : Call → Bool
  | .start act _ _ _ _ _ => decide (act ∉ s.its)
  | _ => true

/-- Execute a call sequence from a state, under the id-uniqueness
precondition on start-unit calls; `none` when a call violates it or fails
an assertion. -/
def runCalls (cfg : Cfg) : State → List Call → Option State
  | s, [] => some s
  | s, c :: cs =>
    if freshOk s c then
      match step cfg s c with
      | none => none
      | some s2 => runCalls cfg s2 cs
    else none

/-- The id keys of the activity storage list. -/
def keysOf (l : List (ActivityId × ActInfo)) : List ActivityId := l.map Prod.fst

/-- The registry consistency invariant maintained by every entry point
(under the id-uniqueness precondition): the flat index and the storage keys
coincide and are duplicate-free, each kind index holds exactly the open
units of that kind, the per-kind directly-set `expected` is the sum of the
open units' contributions, and ignored units contribute nothing. -/
structure GoodState (s : State) : Prop where
  keysNodup : (keysOf s.activities).Nodup
  itsNodup : s.its.Nodup
  itsIff : ∀ act, act ∈ s.its ↔ act ∈ keysOf s.activities
  idxIff : ∀ t act, act ∈ (s.activitiesByType t).its ↔
    ∃ a, lookupAct s.activities act = some a ∧ a.type = t
  idxNodup : ∀ t, ((s.activitiesByType t).its).Nodup
  expEq : ∀ t, (s.activitiesByType t).expected
    = (s.activities.map (fun p => p.2.expectedByType t)).sum
  ignoredZero : ∀ p, p ∈ s.activities → p.2.ignored = true → ∀ t, p.2.expectedByType t = 0

/-- Concrete registry for C1's counterexample: one FileTransfer unit whose
`done = 5` was folded into the rollup at closure. -/
def c1cexState : State :=
  (((startActivity 0 5 initState 1 .actFileTransfer "u" [.tString "url"] 0).bind
      (fun s => result false s 1 .resProgress [.tInt 5, .tInt 0, .tInt 0, .tInt 0])).map
    (fun s => stopActivity s 1)).getD initState

/-- Concrete registry with one open QueryPathInfo unit (id 1). -/
def c2queryState : State :=
  (startActivity 0 5 initState 1 .actQueryPathInfo "q"
    [.tString "p-a", .tString "h"] 0).getD initState

/-- State `c2queryState` plus a FileTransfer unit (id 2) under the QueryPathInfo
unit. -/
def c2transferState : State :=
  (startActivity 0 5 c2queryState 2 .actFileTransfer "url" [.tString "url"] 1).getD initState

/-- Concrete registry with one open Substitute unit (id 1). -/
def c2subState : State :=
  (startActivity 0 5 initState 1 .actSubstitute "s"
    [.tString "p-b", .tString "cache"] 0).getD initState

/-- Concrete registry with one open unit and a clean dirty flag. -/
def c4openState : State :=
  { (startActivity 0 5 initState 1 .actUnknown "x" [] 0).getD initState with
    haveUpdate := false }

/-- Concrete registry with one open non-ignored Builds unit. -/
def c6openState : State :=
  (startActivity 0 5 initState 1 .actBuilds "" [] 0).getD initState

/-- A demonstration trace: start a unit, set an expectation, stop it. -/
def demoCalls : List Call :=
  [.start 1 5 .actBuilds "" [] 0,
   .res 1 .resSetExpected [.tInt 104, .tInt 5],
   .stop 1]

/-- The state reached by `demoCalls` (C8's witness input). -/
def c8demoState : State := (runCalls {} initState demoCalls).getD initState

/-- The state reached by `demoCalls` (C10's witness input). -/
def c10demoState : State := (runCalls {} initState demoCalls).getD initState

/-- Overwrite the four progress counters of a unit record, as the
`resProgress` branch does. -/
def setProgressFields (d e r f : Nat) (x : ActInfo) : ActInfo :=
  { x with done := d, expected := e, running := r, failed := f }

/-! Basic lemmas about the embedding's building blocks. -/

lemma actTypeOfCode_code (t : ActivityType) : actTypeOfCode (actTypeCode t) = some t := by
  cases t <;> rfl

lemma logDraw_activities (s : State) : (logDraw s).activities = s.activities := by
  unfold logDraw; split <;> rfl

lemma logDraw_its (s : State) : (logDraw s).its = s.its := by
  unfold logDraw; split <;> rfl

lemma logDraw_activitiesByType (s : State) : (logDraw s).activitiesByType = s.activitiesByType := by
  unfold logDraw; split <;> rfl

lemma update_its (s : State) : (update s).its = s.its := rfl

lemma update_activities (s : State) : (update s).activities = s.activities := rfl

lemma findAct_none_of_not_mem {s : State} {act : ActivityId} (h : act ∉ s.its) :
    findAct s act = none := by
  simp [findAct, h]

lemma findAct_some_mem {s : State} {act : ActivityId} {a : ActInfo}
    (h : findAct s act = some a) : act ∈ s.its ∧ lookupAct s.activities act = some a := by
  unfold findAct at h
  by_cases hm : act ∈ s.its
  · rw [if_pos hm] at h; exact ⟨hm, h⟩
  · rw [if_neg hm] at h; exact absurd h (by simp)

lemma stopActivity_not_open {s : State} {act : ActivityId} (h : act ∉ s.its) :
    stopActivity s act = update s := by
  unfold stopActivity
  rw [findAct_none_of_not_mem h]

/-! Bar-segment lemmas (C7). -/

lemma barFrac_le_one (n e : Nat) : barFrac n e ≤ 1 := min_le_right _ _

lemma barFrac_mono {n m : Nat} (e : Nat) (h : n ≤ m) : barFrac n e ≤ barFrac m e := by
  unfold barFrac
  apply min_le_min _ le_rfl
  rcases Nat.eq_zero_or_pos e with he | he
  · subst he; simp
  · have he' : (0 : ℚ) < (e : ℚ) := by exact_mod_cast he
    exact (div_le_div_iff_of_pos_right he').mpr (by exact_mod_cast h)

lemma barChars_mono {p q : ℚ} (h : p ≤ q) : barChars p ≤ barChars q := by
  unfold barChars
  have h70 : (70 : ℚ) * p ≤ 70 * q := by nlinarith
  exact Int.toNat_le_toNat (Int.floor_le_floor h70)

lemma barChars_le_70 {p : ℚ} (h : p ≤ 1) : barChars p ≤ 70 := by
  unfold barChars
  have h70 : (70 : ℚ) * p ≤ ((70 : ℤ) : ℚ) := by push_cast; nlinarith
  have hf : Int.floor ((70 : ℚ) * p) ≤ (70 : ℤ) := by
    have h2 := Int.floor_le_floor h70
    simpa using h2
  calc (Int.floor ((70 : ℚ) * p)).toNat ≤ (70 : ℤ).toNat := Int.toNat_le_toNat hf
    _ = 70 := rfl

/-- Claim C7 (confirmed): for all unsigned renderer inputs, after clamping
`expected` to at least 1, the three cumulative segment boundaries
`floor(fraction * 70)` of `renderBar` satisfy
`boundary1 ≤ boundary2 ≤ boundary3 ≤ 70`, so both `assert`s in `renderBar`
hold and the remaining-segment width `70 - boundary3` cannot underflow. -/
theorem c7_bar_bounds (done failed running expected : Nat) :
    (renderBarBounds done failed running expected).1
        ≤ (renderBarBounds done failed running expected).2.1
    ∧ (renderBarBounds done failed running expected).2.1
        ≤ (renderBarBounds done failed running expected).2.2
    ∧ (renderBarBounds done failed running expected).2.2 ≤ 70 :=
  ⟨barChars_mono (barFrac_mono (max expected 1) (Nat.le_add_right failed done)),
   barChars_mono (barFrac_mono (max expected 1) (Nat.le_add_right (failed + done) running)),
   barChars_le_70 (barFrac_le_one (failed + done + running) (max expected 1))⟩

/-- Claim C3 counterexample: the claim says a result-update call whose id
names no open unit is tolerated silently, but on the empty registry a
`resProgress` update for id 9 fails the `assert(i != state->its.end())`
(modelled by `none`) instead of returning with the registry unchanged. -/
theorem c3_claim_cex :
    result false initState 9 ResultType.resProgress
      [LogField.tInt 1, LogField.tInt 2, LogField.tInt 0, LogField.tInt 0] = none := by
  rfl

/-- Claim C3 (corrected): a result-update call (any result kind) whose id
does not name a currently-open unit is not tolerated: it fails the
assertion at the top of `ProgressBar::result` (only stop-unit tolerates
unknown ids). -/
theorem c3_unknown_id_asserts (printBuildLogs : Bool) (s : State) (act : ActivityId)
    (rt : ResultType) (fields : List LogField) (h : findAct s act = none) :
    result printBuildLogs s act rt fields = none := by
  unfold result
  rw [h]
  rfl

/-- Witness for C3's theorem at a concrete input. -/
theorem c3_unknown_id_asserts_witness :
    result false initState 7 ResultType.resSetPhase [LogField.tString "x"] = none :=
  c3_unknown_id_asserts false initState 7 ResultType.resSetPhase [LogField.tString "x"] rfl

/-- Claim C5 (confirmed): stop-unit on an id that is not currently open
only re-marks the dirty flag (`update`): rollup counters, directly-set
expected and all indices are untouched and nothing crashes; consequently a
second stop-unit on the same id (on any index-consistent registry) is such
a no-op. -/
theorem c5_stop_unknown_noop (s : State) (act : ActivityId) :
    (act ∉ s.its → stopActivity s act = update s)
    ∧ (s.its.Nodup → (act ∈ s.its → (lookupAct s.activities act).isSome = true) →
        stopActivity (stopActivity s act) act = update (stopActivity s act)) := by
  constructor
  · exact fun h => stopActivity_not_open h
  · intro hnd hcons
    by_cases hmem : act ∈ s.its
    · obtain ⟨a, ha⟩ := Option.isSome_iff_exists.mp (hcons hmem)
      have hf : findAct s act = some a := by simp [findAct, hmem, ha]
      have hits : (stopActivity s act).its = s.its.erase act := by
        unfold stopActivity
        rw [hf]
        rfl
      have hout : act ∉ (stopActivity s act).its := by
        rw [hits]; exact hnd.not_mem_erase
      exact stopActivity_not_open hout
    · rw [stopActivity_not_open hmem]
      have hout : act ∉ (update s).its := hmem
      rw [stopActivity_not_open hout]

/-- Witness for C5's theorem at a concrete input. -/
theorem c5_stop_unknown_noop_witness :
    (stopActivity initState 3 = update initState)
    ∧ stopActivity (stopActivity initState 3) 3 = update (stopActivity initState 3) :=
  ⟨(c5_stop_unknown_noop initState 3).1 (by simp [initState]),
   (c5_stop_unknown_noop initState 3).2 (by simp [initState]) (by intro h; simp [initState] at h)⟩

/-- Claim C9 counterexample: starting a Build unit with the structured
fields [id="foo", worker="", round=1, total=1] of the claim yields the
empty label, not "foo": `storePathToName` returns `substr(0, 0)` when the
name has no dash. -/
theorem c9_claim_cex :
    ((startActivity 0 5 initState 1 .actBuild "b"
        [.tString "foo", .tString "", .tInt 1, .tInt 1] 0).bind
      (fun s2 => (findAct s2 1).map (fun a => a.s))) = some ""
    ∧ ("" : String) ≠ "foo" := by
  constructor
  · rfl
  · decide

/-- Claim C9 (corrected): with a store-path-style id whose name component
after the first dash is "foo", a Build unit started with
[id="x-foo", worker="", round=1, total=1] gets display label exactly "foo"
(no worker suffix, no round suffix), and one started with
[id="x-foo", worker="remote1", round=2, total=3] gets label
"foo on remote1 (round 2/3)" (escape codes ignored throughout). -/
theorem c9_build_labels :
    ((startActivity 0 5 initState 1 .actBuild "b"
        [.tString "x-foo", .tString "", .tInt 1, .tInt 1] 0).bind
      (fun s2 => (findAct s2 1).map (fun a => a.s))) = some "foo"
    ∧ ((startActivity 0 5 initState 2 .actBuild "b"
        [.tString "x-foo", .tString "remote1", .tInt 2, .tInt 3] 0).bind
      (fun s2 => (findAct s2 2).map (fun a => a.s))) = some "foo on remote1 (round 2/3)" := by
  constructor
  · rfl
  · rfl

/-! Aggregation lemmas (C1). -/

lemma statsLeft_if (d e : Nat) : (if d < e then e - d else 0) = e - d := by
  split
  · rfl
  · omega

lemma foldl_statsStep (s : State) (l : List ActivityId) (st : ActivityStats) :
    l.foldl (statsStep s) st =
      { done := st.done + sumOf s l (fun a => a.done),
        expected := st.expected + sumOf s l (fun a => a.expected),
        running := st.running + sumOf s l (fun a => a.running),
        failed := st.failed + sumOf s l (fun a => a.failed),
        left := st.left + sumOf s l (fun a => a.expected - a.done) } := by
  induction l generalizing st with
  | nil =>
    cases st
    simp [sumOf, unitsOf]
  | cons x xs ih =>
    rw [List.foldl_cons, ih]
    unfold statsStep
    cases hf : findAct s x with
    | none =>
      simp [sumOf, unitsOf, hf]
    | some j =>
      by_cases hig : j.ignored
      · simp [sumOf, unitsOf, hf, hig]
      · simp [sumOf, unitsOf, hf, hig, statsLeft_if, Nat.add_assoc]

/-- Claim C1 (corrected): for every kind, `getActivityStats` returns the
cumulative done/failed plus the open non-ignored units' counters, the sum
of the units' running, left summed as `max(expected - done, 0)` per unit —
but its final `expected` is
`max(cumulative done + sum of units' expected, directly-set expected)`:
the rollup's cumulative `done` seeds the expected sum (`.expected =
act.done` in the initialiser), contrary to the claim's formula. -/
theorem c1_rollup_formula (s : State) (t : ActivityType) :
    getActivityStats s t =
      { done := (s.activitiesByType t).done
          + sumOf s (s.activitiesByType t).its (fun a => a.done),
        expected := max ((s.activitiesByType t).done
            + sumOf s (s.activitiesByType t).its (fun a => a.expected))
          (s.activitiesByType t).expected,
        running := sumOf s (s.activitiesByType t).its (fun a => a.running),
        failed := (s.activitiesByType t).failed
          + sumOf s (s.activitiesByType t).its (fun a => a.failed),
        left := sumOf s (s.activitiesByType t).its (fun a => a.expected - a.done) } := by
  dsimp only [getActivityStats]
  rw [foldl_statsStep]
  simp

/-- Claim C1 counterexample: on a registry where a FileTransfer unit with
`done = 5, expected = 0` was folded in at closure, `getActivityStats`
reports `expected = 5` while the claim's formula (`rollupSpec`, transcribed
from the claim) yields `expected = 0`. -/
theorem c1_claim_cex :
    getActivityStats c1cexState .actFileTransfer ≠ rollupSpec c1cexState .actFileTransfer := by
  decide

/-! Association-list lemmas. -/

lemma lookupAct_modify_self (l : List (ActivityId × ActInfo)) (act : ActivityId)
    (f : ActInfo → ActInfo) :
    lookupAct (modifyActFirst l act f) act = (lookupAct l act).map f := by
  induction l with
  | nil => rfl
  | cons p ps ih =>
    by_cases h : p.1 = act
    · simp [modifyActFirst, lookupAct, h]
    · simp [modifyActFirst, lookupAct, h, ih]

lemma lookupAct_modify_other (l : List (ActivityId × ActInfo)) {act b : ActivityId}
    (h : b ≠ act) (f : ActInfo → ActInfo) :
    lookupAct (modifyActFirst l act f) b = lookupAct l b := by
  induction l with
  | nil => rfl
  | cons p ps ih =>
    simp only [modifyActFirst]
    by_cases h1 : p.1 = act
    · rw [if_pos h1]
      have hb : ¬ p.1 = b := fun hh => h ((hh ▸ h1 : b = act))
      simp only [lookupAct]
      rw [if_neg hb, if_neg hb]
    · rw [if_neg h1]
      simp only [lookupAct]
      by_cases h2 : p.1 = b
      · rw [if_pos h2, if_pos h2]
      · rw [if_neg h2, if_neg h2, ih]

lemma keysOf_modify (l : List (ActivityId × ActInfo)) (act : ActivityId)
    (f : ActInfo → ActInfo) : keysOf (modifyActFirst l act f) = keysOf l := by
  induction l with
  | nil => rfl
  | cons p ps ih =>
    by_cases h : p.1 = act
    · simp [modifyActFirst, keysOf, h]
    · simp only [modifyActFirst, if_neg h]
      simp [keysOf] at ih ⊢
      exact ih

lemma updBT_self (bt : ActivityType → ActivitiesByType) (t : ActivityType)
    (g : ActivitiesByType → ActivitiesByType) : updBT bt t g t = g (bt t) := by
  simp [updBT]

lemma updBT_other (bt : ActivityType → ActivitiesByType) {t u : ActivityType}
    (h : u ≠ t) (g : ActivitiesByType → ActivitiesByType) : updBT bt t g u = bt u := by
  simp [updBT, h]

/-- The fully reduced form of a successful non-ignored `resSetExpected`. -/
lemma result_setExpected_eq (pbl : Bool) (s : State) (act : ActivityId) (a : ActInfo)
    (tc : ActivityType) (v : Nat) (ha : findAct s act = some a) (hig : a.ignored = false) :
    result pbl s act .resSetExpected [.tInt (actTypeCode tc), .tInt v]
      = some (update { s with
          activities := modifyActFirst s.activities act (fun x =>
            { x with expectedByType := fun u => if u = tc then v else x.expectedByType u }),
          activitiesByType := updBT s.activitiesByType tc (fun e =>
            { e with expected := e.expected - a.expectedByType tc + v }) }) := by
  simp [result, ha, hig, getI, actTypeOfCode_code]

/-- Claim C6 (confirmed): a `resSetExpected` call on an open non-ignored
unit replaces that unit's prior expected contribution for the given
sub-kind instead of accumulating: after setting v1 then v2, the unit's
stored contribution is v2 and the sub-kind's directly-set rollup expected
is the original value minus the unit's old contribution plus v2. -/
theorem c6_set_expected_replaces (pbl : Bool) (s : State) (act : ActivityId) (a : ActInfo)
    (tc : ActivityType) (v1 v2 : Nat)
    (ha : findAct s act = some a) (hig : a.ignored = false) :
    ∃ s2, ((result pbl s act .resSetExpected [.tInt (actTypeCode tc), .tInt v1]).bind
        (fun s1 => result pbl s1 act .resSetExpected [.tInt (actTypeCode tc), .tInt v2]))
      = some s2
    ∧ (findAct s2 act).map (fun x => x.expectedByType tc) = some v2
    ∧ (s2.activitiesByType tc).expected
        = (s.activitiesByType tc).expected - a.expectedByType tc + v2 := by
  obtain ⟨hmem, hlook⟩ := findAct_some_mem ha
  have h1 := result_setExpected_eq pbl s act a tc v1 ha hig
  set a1 : ActInfo :=
    { a with expectedByType := fun u => if u = tc then v1 else a.expectedByType u } with ha1def
  set s1 : State := update { s with
      activities := modifyActFirst s.activities act (fun x =>
        { x with expectedByType := fun u => if u = tc then v1 else x.expectedByType u }),
      activitiesByType := updBT s.activitiesByType tc (fun e =>
        { e with expected := e.expected - a.expectedByType tc + v1 }) } with hs1def
  have ha1 : findAct s1 act = some a1 := by
    have hl : lookupAct (modifyActFirst s.activities act (fun x =>
        { x with expectedByType := fun u => if u = tc then v1 else x.expectedByType u })) act
        = some a1 := by
      rw [lookupAct_modify_self, hlook]
      rfl
    simp [hs1def, findAct, update, hmem, hl]
  have hig1 : a1.ignored = false := hig
  have h2 := result_setExpected_eq pbl s1 act a1 tc v2 ha1 hig1
  refine ⟨update { s1 with
      activities := modifyActFirst s1.activities act (fun x =>
        { x with expectedByType := fun u => if u = tc then v2 else x.expectedByType u }),
      activitiesByType := updBT s1.activitiesByType tc (fun e =>
        { e with expected := e.expected - a1.expectedByType tc + v2 }) }, ?_, ?_, ?_⟩
  · rw [h1]
    simpa using h2
  · have hl2 : lookupAct s1.activities act = some a1 := (findAct_some_mem ha1).2
    have hl3 : lookupAct (modifyActFirst s1.activities act (fun x =>
        { x with expectedByType := fun u => if u = tc then v2 else x.expectedByType u })) act
        = some { a1 with expectedByType := fun u => if u = tc then v2 else a1.expectedByType u } := by
      rw [lookupAct_modify_self, hl2]
      rfl
    have hmem1 : act ∈ s1.its := (findAct_some_mem ha1).1
    simp [findAct, update, hmem1, hl3]
  · have hm1 : a1.expectedByType tc = v1 := by simp [ha1def]
    have hbt : (s1.activitiesByType tc).expected
        = (s.activitiesByType tc).expected - a.expectedByType tc + v1 := by
      simp [hs1def, update, updBT_self]
    simp only [update, updBT_self, hm1, hbt, eq_self_iff_true, if_true]
    omega

/-- Witness for C6's theorem at a concrete input. -/
theorem c6_set_expected_replaces_witness :
    ∃ s2, ((result false c6openState 1 .resSetExpected
          [.tInt (actTypeCode .actBuilds), .tInt 5]).bind
        (fun s1 => result false s1 1 .resSetExpected [.tInt (actTypeCode .actBuilds), .tInt 2]))
      = some s2
    ∧ (findAct s2 1).map (fun x => x.expectedByType .actBuilds) = some 2
    ∧ (s2.activitiesByType .actBuilds).expected
        = (c6openState.activitiesByType .actBuilds).expected
          - ((findAct c6openState 1).getD {}).expectedByType .actBuilds + 2 :=
  c6_set_expected_replaces false c6openState 1 ((findAct c6openState 1).getD {})
    .actBuilds 5 2 (by rfl) (by rfl)

/-- Claim C4 counterexample: a pending-build result-update
(`resExpectBuild`) on an open unit returns with the dirty flag still clear:
that mutation entry point does not call `update`. -/
theorem c4_claim_cex :
    (result false c4openState 1 .resExpectBuild [.tString "p"]).map (fun s => s.haveUpdate)
      = some false := by
  rfl

/-- Claim C4 (corrected): start-unit and stop-unit always set the shared
dirty flag before returning, and so do the result-update variants
file-linked, untrusted-path, corrupted-path, set-phase, and progress and
set-expected on non-ignored units; the add/remove-pending-build and
add/remove-pending-substitution variants return with the flag unchanged
(the condition-variable signal accompanies exactly the calls that set the
flag, inside `update`). -/
theorem c4_dirty_flag :
    (∀ (v lvl : Nat) (s : State) (act : ActivityId) (t : ActivityType) (label : String)
        (fields : List LogField) (parent : ActivityId) (s2 : State),
      startActivity v lvl s act t label fields parent = some s2 → s2.haveUpdate = true)
    ∧ (∀ (s : State) (act : ActivityId), (stopActivity s act).haveUpdate = true)
    ∧ (∀ (pbl : Bool) (s : State) (act : ActivityId) (fields : List LogField) (s2 : State)
        (rt : ResultType),
      (rt = .resFileLinked ∨ rt = .resUntrustedPath ∨ rt = .resCorruptedPath ∨ rt = .resSetPhase) →
      result pbl s act rt fields = some s2 → s2.haveUpdate = true)
    ∧ (∀ (pbl : Bool) (s : State) (act : ActivityId) (a : ActInfo) (fields : List LogField)
        (s2 : State) (rt : ResultType),
      (rt = .resProgress ∨ rt = .resSetExpected) →
      findAct s act = some a → a.ignored = false →
      result pbl s act rt fields = some s2 → s2.haveUpdate = true)
    ∧ (∀ (pbl : Bool) (s : State) (act : ActivityId) (fields : List LogField) (s2 : State)
        (rt : ResultType),
      (rt = .resExpectBuild ∨ rt = .resUnexpectBuild ∨ rt = .resExpectSubstitution
        ∨ rt = .resUnexpectSubstitution) →
      result pbl s act rt fields = some s2 → s2.haveUpdate = s.haveUpdate) := by
  refine ⟨?_, ?_, ?_, ?_, ?_⟩
  · intro v lvl s act t label fields parent s2 h
    simp only [startActivity, Option.bind_eq_bind, Option.bind_eq_some, Option.pure_def,
      Option.some.injEq] at h
    obtain ⟨i1, -, h2⟩ := h
    rw [← h2]
    rfl
  · intro s act
    rfl
  · intro pbl s act fields s2 rt hrt h
    rcases hrt with rfl | rfl | rfl | rfl
    · simp only [result, Option.bind_eq_bind, Option.bind_eq_some, Option.pure_def,
        Option.some.injEq] at h
      obtain ⟨a, -, n, -, h2⟩ := h
      rw [← h2]
      rfl
    · simp only [result, Option.bind_eq_bind, Option.bind_eq_some, Option.pure_def,
        Option.some.injEq] at h
      obtain ⟨a, -, h2⟩ := h
      rw [← h2]
      rfl
    · simp only [result, Option.bind_eq_bind, Option.bind_eq_some, Option.pure_def,
        Option.some.injEq] at h
      obtain ⟨a, -, h2⟩ := h
      rw [← h2]
      rfl
    · simp only [result, Option.bind_eq_bind, Option.bind_eq_some, Option.pure_def,
        Option.some.injEq] at h
      obtain ⟨a, -, p, -, h2⟩ := h
      rw [← h2]
      rfl
  · intro pbl s act a fields s2 rt hrt ha hig h
    rcases hrt with rfl | rfl
    · simp only [result, ha, hig, Option.bind_eq_bind, Option.bind_eq_some, Option.pure_def,
        Option.some.injEq, Option.some_bind, Bool.false_eq_true, if_false] at h
      obtain ⟨d, -, e, -, r, -, f, -, h2⟩ := h
      rw [← h2]
      rfl
    · simp only [result, ha, hig, Option.bind_eq_bind, Option.bind_eq_some, Option.pure_def,
        Option.some.injEq, Option.some_bind, Bool.false_eq_true, if_false] at h
      obtain ⟨c, -, t2, -, v, -, h2⟩ := h
      rw [← h2]
      rfl
  · intro pbl s act fields s2 rt hrt h
    rcases hrt with rfl | rfl | rfl | rfl <;>
    · simp only [result, Option.bind_eq_bind, Option.bind_eq_some, Option.pure_def,
        Option.some.injEq] at h
      obtain ⟨a, -, p, -, h2⟩ := h
      rw [← h2]

/-- Witness for C4's theorem at a concrete input. -/
theorem c4_dirty_flag_witness :
    ((startActivity 0 5 initState 1 .actUnknown "x" [] 0).getD initState).haveUpdate = true :=
  c4_dirty_flag.1 0 5 initState 1 .actUnknown "x" [] 0 _ (by rfl)

/-! Lemmas for unit creation and ignored-unit exclusion (C2). -/

lemma mem_emplaceId_self (l : List ActivityId) (act : ActivityId) : act ∈ emplaceId l act := by
  unfold emplaceId
  split
  · assumption
  · exact List.mem_cons_self _ _

lemma lookupAct_cons_self (act : ActivityId) (a : ActInfo) (l : List (ActivityId × ActInfo)) :
    lookupAct ((act, a) :: l) act = some a := by
  simp [lookupAct]

lemma lookupAct_append_not_mem {l : List (ActivityId × ActInfo)} {act : ActivityId}
    (h : act ∉ keysOf l) (l2 : List (ActivityId × ActInfo)) :
    lookupAct (l ++ l2) act = lookupAct l2 act := by
  induction l with
  | nil => rfl
  | cons p ps ih =>
    have h' : act ∉ p.1 :: keysOf ps := h
    have h1 : ¬ p.1 = act := fun hh => h' (by rw [hh]; exact List.mem_cons_self _ _)
    have h2 : act ∉ keysOf ps := fun hh => h' (List.mem_cons_of_mem _ hh)
    show (if p.1 = act then some p.2 else lookupAct (ps ++ l2) act) = lookupAct l2 act
    rw [if_neg h1, ih h2]

lemma startBase_its (v lvl : Nat) (s : State) (act : ActivityId) (t : ActivityType)
    (label : String) (parent : ActivityId) :
    (startBase v lvl s act t label parent).its = emplaceId s.its act := by
  unfold startBase
  split <;> simp [logDraw_its]

lemma startBase_activities (v lvl : Nat) (s : State) (act : ActivityId) (t : ActivityType)
    (label : String) (parent : ActivityId) :
    (startBase v lvl s act t label parent).activities
      = s.activities ++ [(act, baseInfo label t parent)] := by
  unfold startBase
  split <;> simp [logDraw_activities]

lemma startBase_byType (v lvl : Nat) (s : State) (act : ActivityId) (t : ActivityType)
    (label : String) (parent : ActivityId) :
    (startBase v lvl s act t label parent).activitiesByType
      = updBT s.activitiesByType t (fun e => { e with its := emplaceId e.its act }) := by
  unfold startBase
  split <;> simp [logDraw_activitiesByType]

lemma applyVisibility_ignored (s1 : State) (t : ActivityType) (parent : ActivityId)
    (i : ActInfo) : (applyVisibility s1 t parent i).ignored = i.ignored := by
  unfold applyVisibility
  split <;> rfl

lemma foldl_congr_mem {α β : Type} {l : List α} {f g : β → α → β}
    (h : ∀ b a, a ∈ l → f b a = g b a) : ∀ b, l.foldl f b = l.foldl g b := by
  induction l with
  | nil => intro b; rfl
  | cons x xs ih =>
    intro b
    rw [List.foldl_cons, List.foldl_cons, h b x (by simp)]
    exact ih (fun b a ha => h b a (by simp [ha])) _

/-- Claim C2 (corrected): a FileTransfer unit is marked ignored at creation
exactly when its ancestor chain (walked in the state that already indexes
the new unit) contains a CopyPath or QueryPathInfo unit — the code checks
`actCopyPath`, not `actSubstitute` as the claim says; and an ignored open
unit's counters never reach its kind's rollup: arbitrary changes to its
done/expected/running/failed leave `getActivityStats` unchanged for every
kind, and closing it folds nothing into the per-kind cumulative
done/failed/expected. -/
theorem c2_transfer_ignored_rollup :
    (∀ (v lvl : Nat) (s : State) (act : ActivityId) (label : String) (fields : List LogField)
        (parent : ActivityId) (s2 : State),
      act ∉ keysOf s.activities →
      startActivity v lvl s act .actFileTransfer label fields parent = some s2 →
      (findAct s2 act).map (fun a => a.ignored)
        = some (hasAncestor (startBase v lvl s act .actFileTransfer label parent)
              .actCopyPath parent
            || hasAncestor (startBase v lvl s act .actFileTransfer label parent)
              .actQueryPathInfo parent))
    ∧ (∀ (s : State) (act : ActivityId) (a : ActInfo) (t : ActivityType) (d e r f : Nat),
      findAct s act = some a → a.ignored = true →
      getActivityStats
          { s with activities := modifyActFirst s.activities act (setProgressFields d e r f) } t
        = getActivityStats s t)
    ∧ (∀ (s : State) (act : ActivityId) (a : ActInfo) (u : ActivityType),
      findAct s act = some a → a.ignored = true →
      ((stopActivity s act).activitiesByType u).done = (s.activitiesByType u).done
      ∧ ((stopActivity s act).activitiesByType u).failed = (s.activitiesByType u).failed
      ∧ ((stopActivity s act).activitiesByType u).expected
          = (s.activitiesByType u).expected) := by
  refine ⟨?_, ?_, ?_⟩
  · intro v lvl s act label fields parent s2 hfresh h
    simp only [startActivity, Option.bind_eq_bind, Option.bind_eq_some, Option.pure_def,
      Option.some.injEq] at h
    obtain ⟨i1, hi1, h2⟩ := h
    simp only [startDetail, Option.bind_eq_bind, Option.bind_eq_some, Option.pure_def,
      Option.some.injEq] at hi1
    obtain ⟨f0, hf0, hi1⟩ := hi1
    subst h2
    rw [← hi1]
    have hmem : act ∈ (startBase v lvl s act .actFileTransfer label parent).its := by
      rw [startBase_its]
      exact mem_emplaceId_self _ _
    have hacts : (startBase v lvl s act .actFileTransfer label parent).activities.dropLast
        = s.activities := by
      rw [startBase_activities]
      exact List.dropLast_concat
    unfold findAct
    simp only [update, hacts]
    rw [if_pos hmem, lookupAct_append_not_mem hfresh, lookupAct_cons_self]
    simp [applyVisibility_ignored]
  · intro s act a t d e r f ha hig
    obtain ⟨hmem, hlook⟩ := findAct_some_mem ha
    have hstep : ∀ (st : ActivityStats) (x : ActivityId),
        x ∈ (s.activitiesByType t).its →
        statsStep
            { s with activities := modifyActFirst s.activities act (setProgressFields d e r f) }
            st x
          = statsStep s st x := by
      intro st x hx
      unfold statsStep
      by_cases hxa : x = act
      · subst hxa
        have h1 : findAct
            { s with activities := modifyActFirst s.activities x (setProgressFields d e r f) }
            x = some (setProgressFields d e r f a) := by
          unfold findAct
          rw [if_pos hmem, lookupAct_modify_self, hlook]
          rfl
        rw [h1, ha]
        simp [hig, setProgressFields]
      · have h1 : findAct
            { s with activities := modifyActFirst s.activities act (setProgressFields d e r f) }
            x
            = findAct s x := by
          unfold findAct
          rw [lookupAct_modify_other _ hxa]
        rw [h1]
    dsimp only [getActivityStats]
    rw [foldl_congr_mem hstep]
  · intro s act a u ha hig
    unfold stopActivity
    rw [ha]
    refine ⟨?_, ?_, ?_⟩ <;>
    · by_cases h : u = a.type <;> simp [update, stopFold, hig, h]

/-- Witness for C2's theorem at a concrete input: a FileTransfer started
under an open QueryPathInfo unit. -/
theorem c2_transfer_ignored_rollup_witness :
    (findAct c2transferState 2).map (fun a => a.ignored)
      = some (hasAncestor (startBase 0 5 c2queryState 2 .actFileTransfer "url" 1)
            .actCopyPath 1
          || hasAncestor (startBase 0 5 c2queryState 2 .actFileTransfer "url" 1)
            .actQueryPathInfo 1) :=
  c2_transfer_ignored_rollup.1 0 5 c2queryState 2 "url" [.tString "url"] 1 c2transferState
    (by decide) (by rfl)

/-- Claim C2 counterexample: a FileTransfer unit whose ancestor chain
contains a Substitute unit (and no CopyPath or QueryPathInfo unit) is not
marked ignored — the code checks for CopyPath, not Substitute. -/
theorem c2_claim_cex :
    ((startActivity 0 5 c2subState 2 .actFileTransfer "url" [.tString "url"] 1).bind
      (fun s2 => (findAct s2 2).map (fun a => a.ignored))) = some false := by
  rfl


/-! Lemma kit for the registry indices (C8, C10). -/

lemma lookupAct_eq_none {l : List (ActivityId × ActInfo)} {b : ActivityId} :
    lookupAct l b = none ↔ b ∉ keysOf l := by
  induction l with
  | nil => simp [lookupAct, keysOf]
  | cons p ps ih =>
    show (if p.1 = b then some p.2 else lookupAct ps b) = none ↔ b ∉ p.1 :: keysOf ps
    by_cases h : p.1 = b
    · rw [if_pos h]
      constructor
      · intro hh
        exact absurd hh (by simp)
      · intro hh
        exact absurd (by rw [← h]; exact List.mem_cons_self _ _) hh
    · rw [if_neg h, ih]
      constructor
      · intro hh hmem
        rcases List.mem_cons.mp hmem with he | hm
        · exact h he.symm
        · exact hh hm
      · intro hh hm
        exact hh (List.mem_cons_of_mem _ hm)

lemma lookup_some_mem_keys {l : List (ActivityId × ActInfo)} {b : ActivityId} {a : ActInfo}
    (h : lookupAct l b = some a) : b ∈ keysOf l := by
  by_contra hn
  rw [← lookupAct_eq_none, h] at hn
  exact Option.noConfusion hn

lemma lookup_of_mem_keys {l : List (ActivityId × ActInfo)} {b : ActivityId}
    (h : b ∈ keysOf l) : ∃ a, lookupAct l b = some a := by
  cases hl : lookupAct l b with
  | none => exact absurd (lookupAct_eq_none.mp hl) (by simpa using h)
  | some a => exact ⟨a, rfl⟩

lemma lookupAct_pair_mem {l : List (ActivityId × ActInfo)} {b : ActivityId} {a : ActInfo}
    (h : lookupAct l b = some a) : (b, a) ∈ l := by
  induction l with
  | nil => exact absurd h (by simp [lookupAct])
  | cons p ps ih =>
    by_cases hb : p.1 = b
    · rw [show lookupAct (p :: ps) b = some p.2 from by simp [lookupAct, hb]] at h
      obtain rfl := Option.some.inj h
      have hpe : (b, p.2) = p := by rw [← hb]
      exact hpe ▸ List.mem_cons_self _ _
    · rw [show lookupAct (p :: ps) b = lookupAct ps b from by simp [lookupAct, hb]] at h
      exact List.mem_cons_of_mem _ (ih h)

lemma lookupAct_append_other {l : List (ActivityId × ActInfo)} {act b : ActivityId}
    (h : b ≠ act) (x : ActInfo) : lookupAct (l ++ [(act, x)]) b = lookupAct l b := by
  induction l with
  | nil =>
    show (if act = b then some x else none) = none
    rw [if_neg (fun hh => h hh.symm)]
  | cons p ps ih =>
    show (if p.1 = b then some p.2 else lookupAct (ps ++ [(act, x)]) b)
        = (if p.1 = b then some p.2 else lookupAct ps b)
    by_cases hb : p.1 = b
    · rw [if_pos hb, if_pos hb]
    · rw [if_neg hb, if_neg hb, ih]

lemma lookupAct_erase_other {l : List (ActivityId × ActInfo)} {act b : ActivityId}
    (h : b ≠ act) : lookupAct (eraseActFirst l act) b = lookupAct l b := by
  induction l with
  | nil => rfl
  | cons p ps ih =>
    show lookupAct (if p.1 = act then ps else p :: eraseActFirst ps act) b
        = (if p.1 = b then some p.2 else lookupAct ps b)
    by_cases ha : p.1 = act
    · rw [if_pos ha]
      have hb : ¬ p.1 = b := fun hh => h ((hh ▸ ha : b = act))
      rw [if_neg hb]
    · rw [if_neg ha]
      show (if p.1 = b then some p.2 else lookupAct (eraseActFirst ps act) b)
          = (if p.1 = b then some p.2 else lookupAct ps b)
      by_cases hb : p.1 = b
      · rw [if_pos hb, if_pos hb]
      · rw [if_neg hb, if_neg hb, ih]

lemma lookupAct_erase_self {l : List (ActivityId × ActInfo)} {act : ActivityId}
    (hnd : (keysOf l).Nodup) : lookupAct (eraseActFirst l act) act = none := by
  induction l with
  | nil => rfl
  | cons p ps ih =>
    have hnd' : (keysOf ps).Nodup := (List.nodup_cons.mp hnd).2
    show lookupAct (if p.1 = act then ps else p :: eraseActFirst ps act) act = none
    by_cases ha : p.1 = act
    · rw [if_pos ha]
      have hout : act ∉ keysOf ps := by
        rw [← ha]
        exact (List.nodup_cons.mp hnd).1
      exact lookupAct_eq_none.mpr hout
    · rw [if_neg ha]
      show (if p.1 = act then some p.2 else lookupAct (eraseActFirst ps act) act) = none
      rw [if_neg ha]
      exact ih hnd'

lemma keysOf_append (l l2 : List (ActivityId × ActInfo)) :
    keysOf (l ++ l2) = keysOf l ++ keysOf l2 := by
  simp [keysOf]

lemma keysOf_erase (l : List (ActivityId × ActInfo)) (act : ActivityId) :
    keysOf (eraseActFirst l act) = (keysOf l).erase act := by
  induction l with
  | nil => rfl
  | cons p ps ih =>
    show keysOf (if p.1 = act then ps else p :: eraseActFirst ps act)
        = (p.1 :: keysOf ps).erase act
    by_cases ha : p.1 = act
    · rw [if_pos ha, List.erase_cons, if_pos (by simp [ha])]
    · rw [if_neg ha, List.erase_cons, if_neg (by simp [ha])]
      show p.1 :: keysOf (eraseActFirst ps act) = p.1 :: (keysOf ps).erase act
      rw [ih]

lemma mem_eraseActFirst_subset {l : List (ActivityId × ActInfo)} {act : ActivityId}
    {p : ActivityId × ActInfo} (h : p ∈ eraseActFirst l act) : p ∈ l := by
  induction l with
  | nil => exact absurd h (by simp [eraseActFirst])
  | cons q qs ih =>
    by_cases ha : q.1 = act
    · rw [show eraseActFirst (q :: qs) act = qs from by simp [eraseActFirst, ha]] at h
      exact List.mem_cons_of_mem _ h
    · rw [show eraseActFirst (q :: qs) act = q :: eraseActFirst qs act from by
        simp [eraseActFirst, ha]] at h
      rcases List.mem_cons.mp h with h | h
      · exact h ▸ List.mem_cons_self _ _
      · exact List.mem_cons_of_mem _ (ih h)

lemma mem_modifyActFirst {l : List (ActivityId × ActInfo)} {act : ActivityId} {a : ActInfo}
    {f : ActInfo → ActInfo} (hl : lookupAct l act = some a)
    {p : ActivityId × ActInfo} (hp : p ∈ modifyActFirst l act f) :
    p ∈ l ∨ p = (act, f a) := by
  induction l with
  | nil => exact absurd hp (by simp [modifyActFirst])
  | cons q qs ih =>
    by_cases ha : q.1 = act
    · rw [show lookupAct (q :: qs) act = some q.2 from by simp [lookupAct, ha]] at hl
      obtain rfl := Option.some.inj hl
      rw [show modifyActFirst (q :: qs) act f = (q.1, f q.2) :: qs from by
        simp [modifyActFirst, ha]] at hp
      rcases List.mem_cons.mp hp with h | h
      · exact Or.inr (by rw [h, ha])
      · exact Or.inl (List.mem_cons_of_mem _ h)
    · rw [show lookupAct (q :: qs) act = lookupAct qs act from by simp [lookupAct, ha]] at hl
      rw [show modifyActFirst (q :: qs) act f = q :: modifyActFirst qs act f from by
        simp [modifyActFirst, ha]] at hp
      rcases List.mem_cons.mp hp with h | h
      · exact Or.inl (h ▸ List.mem_cons_self _ _)
      · rcases ih hl h with h | h
        · exact Or.inl (List.mem_cons_of_mem _ h)
        · exact Or.inr h

lemma sum_map_modify {l : List (ActivityId × ActInfo)} {act : ActivityId} {a : ActInfo}
    (g : ActInfo → Nat) (f : ActInfo → ActInfo) (hl : lookupAct l act = some a) :
    (((modifyActFirst l act f).map (fun p => g p.2)).sum) + g a
      = ((l.map (fun p => g p.2)).sum) + g (f a) := by
  induction l with
  | nil => exact absurd hl (by simp [lookupAct])
  | cons q qs ih =>
    by_cases ha : q.1 = act
    · rw [show lookupAct (q :: qs) act = some q.2 from by simp [lookupAct, ha]] at hl
      obtain rfl := Option.some.inj hl
      rw [show modifyActFirst (q :: qs) act f = (q.1, f q.2) :: qs from by
        simp [modifyActFirst, ha]]
      simp only [List.map_cons, List.sum_cons]
      omega
    · rw [show lookupAct (q :: qs) act = lookupAct qs act from by simp [lookupAct, ha]] at hl
      rw [show modifyActFirst (q :: qs) act f = q :: modifyActFirst qs act f from by
        simp [modifyActFirst, ha]]
      simp only [List.map_cons, List.sum_cons]
      have := ih hl
      omega

lemma sum_map_erase {l : List (ActivityId × ActInfo)} {act : ActivityId} {a : ActInfo}
    (g : ActInfo → Nat) (hl : lookupAct l act = some a) :
    (((eraseActFirst l act).map (fun p => g p.2)).sum) + g a
      = (l.map (fun p => g p.2)).sum := by
  induction l with
  | nil => exact absurd hl (by simp [lookupAct])
  | cons q qs ih =>
    by_cases ha : q.1 = act
    · rw [show lookupAct (q :: qs) act = some q.2 from by simp [lookupAct, ha]] at hl
      obtain rfl := Option.some.inj hl
      rw [show eraseActFirst (q :: qs) act = qs from by simp [eraseActFirst, ha]]
      simp only [List.map_cons, List.sum_cons]
      omega
    · rw [show lookupAct (q :: qs) act = lookupAct qs act from by simp [lookupAct, ha]] at hl
      rw [show eraseActFirst (q :: qs) act = q :: eraseActFirst qs act from by
        simp [eraseActFirst, ha]]
      simp only [List.map_cons, List.sum_cons]
      have := ih hl
      omega

lemma elem_le_sum {l : List (ActivityId × ActInfo)} {act : ActivityId} {a : ActInfo}
    (g : ActInfo → Nat) (hl : lookupAct l act = some a) :
    g a ≤ (l.map (fun p => g p.2)).sum := by
  induction l with
  | nil => exact absurd hl (by simp [lookupAct])
  | cons q qs ih =>
    by_cases ha : q.1 = act
    · rw [show lookupAct (q :: qs) act = some q.2 from by simp [lookupAct, ha]] at hl
      obtain rfl := Option.some.inj hl
      simp only [List.map_cons, List.sum_cons]
      omega
    · rw [show lookupAct (q :: qs) act = lookupAct qs act from by simp [lookupAct, ha]] at hl
      simp only [List.map_cons, List.sum_cons]
      have := ih hl
      omega

lemma mem_emplaceId {l : List ActivityId} {act b : ActivityId} :
    b ∈ emplaceId l act ↔ b = act ∨ b ∈ l := by
  unfold emplaceId
  split
  · constructor
    · exact Or.inr
    · rintro (rfl | h)
      · assumption
      · exact h
  · simp [List.mem_cons]

lemma nodup_emplaceId {l : List ActivityId} (act : ActivityId) (h : l.Nodup) :
    (emplaceId l act).Nodup := by
  unfold emplaceId
  split
  · exact h
  · exact List.nodup_cons.mpr ⟨by assumption, h⟩

/-! Preservation of the registry invariant by the entry points. -/

lemma goodState_update {s : State} (hg : GoodState s) : GoodState (update s) :=
  ⟨hg.keysNodup, hg.itsNodup, hg.itsIff, hg.idxIff, hg.idxNodup, hg.expEq, hg.ignoredZero⟩

lemma goodState_logDraw {s : State} (hg : GoodState s) : GoodState (logDraw s) := by
  unfold logDraw
  split
  · exact ⟨hg.keysNodup, hg.itsNodup, hg.itsIff, hg.idxIff, hg.idxNodup, hg.expEq,
      hg.ignoredZero⟩
  · exact hg

lemma applyVisibility_type (s1 : State) (t : ActivityType) (parent : ActivityId)
    (i : ActInfo) : (applyVisibility s1 t parent i).type = i.type := by
  unfold applyVisibility
  split <;> rfl

lemma applyVisibility_ebt (s1 : State) (t : ActivityType) (parent : ActivityId)
    (i : ActInfo) : (applyVisibility s1 t parent i).expectedByType = i.expectedByType := by
  unfold applyVisibility
  split <;> rfl

lemma startDetail_keep {s1 : State} {t : ActivityType} {fields : List LogField}
    {parent : ActivityId} {i i1 : ActInfo} (h : startDetail s1 t fields parent i = some i1) :
    i1.type = i.type ∧ i1.expectedByType = i.expectedByType := by
  cases t
  all_goals
    simp only [startDetail, Option.bind_eq_bind, Option.bind_eq_some, Option.pure_def,
      Option.some.injEq] at h
  case actBuild =>
    obtain ⟨p, -, m, -, c, -, n, -, h⟩ := h
    rw [← h]
    exact ⟨rfl, rfl⟩
  case actSubstitute =>
    obtain ⟨p, -, q, -, h⟩ := h
    rw [← h]
    exact ⟨rfl, rfl⟩
  case actPostBuildHook =>
    obtain ⟨p, -, h⟩ := h
    rw [← h]
    exact ⟨rfl, rfl⟩
  case actQueryPathInfo =>
    obtain ⟨p, -, q, -, h⟩ := h
    rw [← h]
    exact ⟨rfl, rfl⟩
  case actFileTransfer =>
    obtain ⟨p, -, h⟩ := h
    rw [← h]
    exact ⟨rfl, rfl⟩
  all_goals
    rw [← h]
    exact ⟨rfl, rfl⟩

lemma startActivity_parts {v lvl : Nat} {s : State} {act : ActivityId} {t : ActivityType}
    {label : String} {fields : List LogField} {parent : ActivityId} {s2 : State}
    (h : startActivity v lvl s act t label fields parent = some s2) :
    ∃ i2 : ActInfo, i2.type = t ∧ i2.expectedByType = (fun _ => 0)
      ∧ s2.activities = s.activities ++ [(act, i2)]
      ∧ s2.its = emplaceId s.its act
      ∧ s2.activitiesByType
          = updBT s.activitiesByType t (fun e => { e with its := emplaceId e.its act })
      ∧ s2.haveUpdate = true := by
  simp only [startActivity, Option.bind_eq_bind, Option.bind_eq_some, Option.pure_def,
    Option.some.injEq] at h
  obtain ⟨i1, hi1, h2⟩ := h
  obtain ⟨hty, hebt⟩ := startDetail_keep hi1
  refine ⟨applyVisibility (startBase v lvl s act t label parent) t parent i1,
    ?_, ?_, ?_, ?_, ?_, ?_⟩
  · rw [applyVisibility_type, hty]
    rfl
  · rw [applyVisibility_ebt, hebt]
    rfl
  · rw [← h2]
    show (startBase v lvl s act t label parent).activities.dropLast
        ++ [(act, applyVisibility (startBase v lvl s act t label parent) t parent i1)]
      = s.activities
        ++ [(act, applyVisibility (startBase v lvl s act t label parent) t parent i1)]
    rw [startBase_activities, List.dropLast_concat]
  · rw [← h2]
    exact startBase_its v lvl s act t label parent
  · rw [← h2]
    exact startBase_byType v lvl s act t label parent
  · rw [← h2]
    rfl

lemma goodState_start {v lvl : Nat} {s : State} {act : ActivityId} {t : ActivityType}
    {label : String} {fields : List LogField} {parent : ActivityId} {s2 : State}
    (hg : GoodState s) (hfresh : act ∉ s.its)
    (h : startActivity v lvl s act t label fields parent = some s2) : GoodState s2 := by
  obtain ⟨i2, hty, hebt, hACT, hITS, hBT, -⟩ := startActivity_parts h
  have hfreshK : act ∉ keysOf s.activities := fun hh => hfresh ((hg.itsIff act).mpr hh)
  refine ⟨?_, ?_, ?_, ?_, ?_, ?_, ?_⟩
  · rw [hACT, keysOf_append]
    refine List.Nodup.append hg.keysNodup (by simp [keysOf]) ?_
    intro b hb hb2
    simp only [keysOf, List.map_cons, List.map_nil, List.mem_singleton] at hb2
    subst hb2
    exact hfreshK hb
  · rw [hITS]
    exact nodup_emplaceId _ hg.itsNodup
  · intro b
    rw [hITS, hACT, keysOf_append, mem_emplaceId]
    constructor
    · rintro (rfl | hb)
      · exact List.mem_append_right _ (by simp [keysOf])
      · exact List.mem_append_left _ ((hg.itsIff b).mp hb)
    · intro hb
      rcases List.mem_append.mp hb with hb | hb
      · exact Or.inr ((hg.itsIff b).mpr hb)
      · simp only [keysOf, List.map_cons, List.map_nil, List.mem_singleton] at hb
        exact Or.inl hb
  · intro u b
    rw [hBT, hACT]
    by_cases hbact : b = act
    · subst hbact
      have hlook : lookupAct (s.activities ++ [(b, i2)]) b = some i2 := by
        rw [lookupAct_append_not_mem hfreshK]
        exact lookupAct_cons_self _ _ _
      constructor
      · intro hmem2
        by_cases hu : u = t
        · exact ⟨i2, hlook, by rw [hty, hu]⟩
        · rw [updBT_other _ hu] at hmem2
          obtain ⟨a', hla, -⟩ := (hg.idxIff u b).mp hmem2
          exact absurd (lookup_some_mem_keys hla) hfreshK
      · rintro ⟨a', ha', hat⟩
        rw [hlook] at ha'
        obtain rfl := Option.some.inj ha'
        have hu : u = t := by rw [← hat, hty]
        subst hu
        rw [updBT_self]
        exact mem_emplaceId.mpr (Or.inl rfl)
    · have hlook : lookupAct (s.activities ++ [(act, i2)]) b = lookupAct s.activities b :=
        lookupAct_append_other hbact _
      rw [hlook]
      by_cases hu : u = t
      · subst hu
        rw [updBT_self]
        constructor
        · intro hb
          rcases mem_emplaceId.mp hb with rfl | hb2
          · exact absurd rfl hbact
          · exact (hg.idxIff _ b).mp hb2
        · intro hb
          exact mem_emplaceId.mpr (Or.inr ((hg.idxIff _ b).mpr hb))
      · rw [updBT_other _ hu]
        exact hg.idxIff u b
  · intro u
    rw [hBT]
    by_cases hu : u = t
    · subst hu
      rw [updBT_self]
      exact nodup_emplaceId _ (hg.idxNodup u)
    · rw [updBT_other _ hu]
      exact hg.idxNodup u
  · intro u
    rw [hBT, hACT]
    have h1 : (updBT s.activitiesByType t
        (fun e => { e with its := emplaceId e.its act }) u).expected
        = (s.activitiesByType u).expected := by
      by_cases hu : u = t
      · subst hu
        rw [updBT_self]
      · rw [updBT_other _ hu]
    rw [h1, List.map_append, List.sum_append]
    simp [hebt, hg.expEq u]
  · intro p hp hpig u
    rw [hACT] at hp
    rcases List.mem_append.mp hp with hp | hp
    · exact hg.ignoredZero p hp hpig u
    · simp only [List.mem_singleton] at hp
      subst hp
      show i2.expectedByType u = 0
      rw [hebt]

lemma stopFold_its (a : ActInfo) (act : ActivityId) (bt : ActivityType → ActivitiesByType)
    (u : ActivityType) :
    (stopFold a act bt u).its
      = if u = a.type then (bt u).its.erase act else (bt u).its := by
  unfold stopFold
  by_cases hig : a.ignored = true <;> by_cases hu : u = a.type <;> simp [hig, hu]

lemma stopFold_expected (a : ActInfo) (act : ActivityId)
    (bt : ActivityType → ActivitiesByType) (u : ActivityType) :
    (stopFold a act bt u).expected
      = if a.ignored = true then (bt u).expected
        else (bt u).expected - a.expectedByType u := by
  unfold stopFold
  by_cases hig : a.ignored = true <;> by_cases hu : u = a.type <;> simp [hig, hu]

lemma goodState_stop {s : State} {act : ActivityId} (hg : GoodState s) :
    GoodState (stopActivity s act) := by
  cases hfa : findAct s act with
  | none =>
    have heq : stopActivity s act = update s := by
      unfold stopActivity
      rw [hfa]
    rw [heq]
    exact goodState_update hg
  | some a =>
    obtain ⟨hmem, hlook⟩ := findAct_some_mem hfa
    have hpair : (act, a) ∈ s.activities := lookupAct_pair_mem hlook
    have hstop : stopActivity s act = update
        { s with
          activitiesByType := stopFold a act s.activitiesByType,
          activities := eraseActFirst s.activities act,
          its := s.its.erase act } := by
      unfold stopActivity
      rw [hfa]
    rw [hstop]
    apply goodState_update
    refine ⟨?_, ?_, ?_, ?_, ?_, ?_, ?_⟩
    · show (keysOf (eraseActFirst s.activities act)).Nodup
      rw [keysOf_erase]
      exact hg.keysNodup.erase act
    · exact hg.itsNodup.erase act
    · intro b
      show b ∈ s.its.erase act ↔ b ∈ keysOf (eraseActFirst s.activities act)
      rw [keysOf_erase, hg.itsNodup.mem_erase_iff, hg.keysNodup.mem_erase_iff, hg.itsIff b]
    · intro u b
      show b ∈ (stopFold a act s.activitiesByType u).its ↔ _
      rw [stopFold_its]
      by_cases hb : b = act
      · subst hb
        have hnone : lookupAct (eraseActFirst s.activities b) b = none :=
          lookupAct_erase_self hg.keysNodup
        rw [hnone]
        constructor
        · intro hmem2
          by_cases hu : u = a.type
          · rw [if_pos hu] at hmem2
            exact absurd hmem2 (hg.idxNodup u).not_mem_erase
          · rw [if_neg hu] at hmem2
            obtain ⟨a', hla, hat⟩ := (hg.idxIff u b).mp hmem2
            rw [hlook] at hla
            obtain rfl := Option.some.inj hla
            exact absurd hat.symm hu
        · rintro ⟨a', ha', -⟩
          exact Option.noConfusion ha'
      · have hle : lookupAct (eraseActFirst s.activities act) b = lookupAct s.activities b :=
          lookupAct_erase_other hb
        rw [hle]
        by_cases hu : u = a.type
        · rw [if_pos hu]
          rw [List.Nodup.mem_erase_iff (hg.idxNodup u)]
          constructor
          · rintro ⟨-, hbi⟩
            exact (hg.idxIff u b).mp hbi
          · intro hex
            exact ⟨hb, (hg.idxIff u b).mpr hex⟩
        · rw [if_neg hu]
          exact hg.idxIff u b
    · intro u
      show ((stopFold a act s.activitiesByType u).its).Nodup
      rw [stopFold_its]
      by_cases hu : u = a.type
      · rw [if_pos hu]
        exact (hg.idxNodup u).erase act
      · rw [if_neg hu]
        exact hg.idxNodup u
    · intro u
      show (stopFold a act s.activitiesByType u).expected
          = ((eraseActFirst s.activities act).map (fun p => p.2.expectedByType u)).sum
      rw [stopFold_expected]
      have hsum := sum_map_erase (fun x => x.expectedByType u) hlook
      beta_reduce at hsum
      by_cases hig : a.ignored = true
      · rw [if_pos hig]
        have hz : a.expectedByType u = 0 := hg.ignoredZero (act, a) hpair hig u
        rw [hg.expEq u]
        omega
      · rw [if_neg hig]
        rw [hg.expEq u]
        have hel := elem_le_sum (fun x => x.expectedByType u) hlook
        beta_reduce at hel
        omega
    · intro p hp hpig u
      exact hg.ignoredZero p (mem_eraseActFirst_subset hp) hpig u

lemma goodState_same {s s' : State} (hg : GoodState s)
    (h1 : s'.activities = s.activities) (h2 : s'.its = s.its)
    (h3 : s'.activitiesByType = s.activitiesByType) : GoodState s' := by
  refine ⟨?_, ?_, ?_, ?_, ?_, ?_, ?_⟩
  · rw [h1]
    exact hg.keysNodup
  · rw [h2]
    exact hg.itsNodup
  · intro b
    rw [h1, h2]
    exact hg.itsIff b
  · intro u b
    rw [h1, h3]
    exact hg.idxIff u b
  · intro u
    rw [h3]
    exact hg.idxNodup u
  · intro u
    rw [h1, h3]
    exact hg.expEq u
  · intro p hp
    rw [h1] at hp
    exact hg.ignoredZero p hp

lemma goodState_modify {s : State} {act : ActivityId} {a : ActInfo} {f : ActInfo → ActInfo}
    (hg : GoodState s) (hlook : lookupAct s.activities act = some a)
    (hty : ∀ x, (f x).type = x.type)
    (hebt : ∀ x, (f x).expectedByType = x.expectedByType)
    (hig : ∀ x, (f x).ignored = x.ignored) :
    GoodState { s with activities := modifyActFirst s.activities act f } := by
  refine ⟨?_, ?_, ?_, ?_, ?_, ?_, ?_⟩
  · show (keysOf (modifyActFirst s.activities act f)).Nodup
    rw [keysOf_modify]
    exact hg.keysNodup
  · exact hg.itsNodup
  · intro b
    show b ∈ s.its ↔ b ∈ keysOf (modifyActFirst s.activities act f)
    rw [keysOf_modify]
    exact hg.itsIff b
  · intro u b
    show b ∈ (s.activitiesByType u).its ↔
      ∃ a', lookupAct (modifyActFirst s.activities act f) b = some a' ∧ a'.type = u
    by_cases hb : b = act
    · subst hb
      rw [lookupAct_modify_self, hlook, Option.map_some']
      constructor
      · intro hmem2
        obtain ⟨a', hla, hat⟩ := (hg.idxIff u b).mp hmem2
        rw [hlook] at hla
        obtain rfl := Option.some.inj hla
        exact ⟨f a, rfl, by rw [hty, hat]⟩
      · rintro ⟨a', ha', hat⟩
        obtain rfl := Option.some.inj ha'
        exact (hg.idxIff u b).mpr ⟨a, hlook, by rw [← hty a, hat]⟩
    · rw [lookupAct_modify_other _ hb]
      exact hg.idxIff u b
  · exact hg.idxNodup
  · intro u
    show (s.activitiesByType u).expected
        = ((modifyActFirst s.activities act f).map (fun p => p.2.expectedByType u)).sum
    have hsum := sum_map_modify (fun x => x.expectedByType u) f hlook
    beta_reduce at hsum
    rw [show (f a).expectedByType u = a.expectedByType u from by rw [hebt a]] at hsum
    rw [hg.expEq u]
    omega
  · intro p hp hpig u
    rcases mem_modifyActFirst hlook hp with hpm | hpm
    · exact hg.ignoredZero p hpm hpig u
    · rw [hpm] at hpig ⊢
      show (f a).expectedByType u = 0
      rw [hebt a]
      have haig : a.ignored = true := by
        rw [← hig a]
        exact hpig
      exact hg.ignoredZero (act, a) (lookupAct_pair_mem hlook) haig u

lemma goodState_result {pbl : Bool} {s : State} {act : ActivityId} {rt : ResultType}
    {fields : List LogField} {s2 : State} (hg : GoodState s)
    (h : result pbl s act rt fields = some s2) : GoodState s2 := by
  simp only [result, Option.bind_eq_bind, Option.bind_eq_some] at h
  obtain ⟨a, ha, h2⟩ := h
  obtain ⟨hmem, hlook⟩ := findAct_some_mem ha
  cases rt
  case resFileLinked =>
    simp only [Option.bind_eq_bind, Option.bind_eq_some, Option.pure_def,
      Option.some.injEq] at h2
    obtain ⟨n, -, h2⟩ := h2
    rw [← h2]
    exact goodState_same hg rfl rfl rfl
  case resBuildLogLine =>
    simp only [Option.bind_eq_bind, Option.bind_eq_some, Option.pure_def,
      Option.some.injEq] at h2
    obtain ⟨raw, -, h2⟩ := h2
    have hmod : GoodState { s with activities := modifyActFirst s.activities act (fun x => { x with lastLine := chomp raw }) } :=
      goodState_modify hg hlook (fun x => rfl) (fun x => rfl) (fun x => rfl)
    split at h2
    · obtain rfl := Option.some.inj h2
      exact hg
    · split at h2
      · obtain rfl := Option.some.inj h2
        exact goodState_logDraw hmod
      · obtain rfl := Option.some.inj h2
        exact goodState_update hmod
  case resPostBuildLogLine =>
    simp only [Option.bind_eq_bind, Option.bind_eq_some, Option.pure_def,
      Option.some.injEq] at h2
    obtain ⟨raw, -, h2⟩ := h2
    have hmod : GoodState { s with activities := modifyActFirst s.activities act (fun x => { x with lastLine := chomp raw }) } :=
      goodState_modify hg hlook (fun x => rfl) (fun x => rfl) (fun x => rfl)
    split at h2
    · obtain rfl := Option.some.inj h2
      exact hg
    · split at h2
      · obtain rfl := Option.some.inj h2
        exact goodState_logDraw hmod
      · obtain rfl := Option.some.inj h2
        exact goodState_update hmod
  case resUntrustedPath =>
    simp only [Option.pure_def, Option.some.injEq] at h2
    rw [← h2]
    exact goodState_same hg rfl rfl rfl
  case resCorruptedPath =>
    simp only [Option.pure_def, Option.some.injEq] at h2
    rw [← h2]
    exact goodState_same hg rfl rfl rfl
  case resSetPhase =>
    simp only [Option.bind_eq_bind, Option.bind_eq_some, Option.pure_def,
      Option.some.injEq] at h2
    obtain ⟨p, -, h2⟩ := h2
    rw [← h2]
    exact goodState_update
      (goodState_modify hg hlook (fun x => rfl) (fun x => rfl) (fun x => rfl))
  case resProgress =>
    dsimp only at h2
    split at h2
    · obtain rfl := Option.some.inj h2
      exact hg
    · simp only [Option.bind_eq_bind, Option.bind_eq_some, Option.pure_def,
        Option.some.injEq] at h2
      obtain ⟨d, -, e, -, r, -, f, -, h2⟩ := h2
      rw [← h2]
      exact goodState_update
        (goodState_modify hg hlook (fun x => rfl) (fun x => rfl) (fun x => rfl))
  case resSetExpected =>
    dsimp only at h2
    split at h2
    · obtain rfl := Option.some.inj h2
      exact hg
    · rename_i hig
      simp only [Option.bind_eq_bind, Option.bind_eq_some, Option.pure_def,
        Option.some.injEq] at h2
      obtain ⟨c, -, tc, -, v, -, h2⟩ := h2
      rw [← h2]
      apply goodState_update
      have higf : a.ignored = false := by
        cases hb : a.ignored
        · rfl
        · exact absurd hb hig
      refine ⟨?_, ?_, ?_, ?_, ?_, ?_, ?_⟩
      · show (keysOf (modifyActFirst s.activities act _)).Nodup
        rw [keysOf_modify]
        exact hg.keysNodup
      · exact hg.itsNodup
      · intro b
        show b ∈ s.its ↔ b ∈ keysOf (modifyActFirst s.activities act _)
        rw [keysOf_modify]
        exact hg.itsIff b
      · intro u b
        show b ∈ (updBT s.activitiesByType tc _ u).its ↔ _
        have hits : (updBT s.activitiesByType tc
            (fun e => { e with expected := e.expected - a.expectedByType tc + v }) u).its
            = (s.activitiesByType u).its := by
          by_cases hu : u = tc
          · subst hu
            rw [updBT_self]
          · rw [updBT_other _ hu]
        rw [hits]
        by_cases hb : b = act
        · subst hb
          rw [lookupAct_modify_self, hlook, Option.map_some']
          constructor
          · intro hmem2
            obtain ⟨a', hla, hat⟩ := (hg.idxIff u b).mp hmem2
            rw [hlook] at hla
            obtain rfl := Option.some.inj hla
            exact ⟨_, rfl, hat⟩
          · rintro ⟨a', ha', hat⟩
            obtain rfl := Option.some.inj ha'
            exact (hg.idxIff u b).mpr ⟨a, hlook, hat⟩
        · rw [lookupAct_modify_other _ hb]
          exact hg.idxIff u b
      · intro u
        show ((updBT s.activitiesByType tc _ u).its).Nodup
        have hits : (updBT s.activitiesByType tc
            (fun e => { e with expected := e.expected - a.expectedByType tc + v }) u).its
            = (s.activitiesByType u).its := by
          by_cases hu : u = tc
          · subst hu
            rw [updBT_self]
          · rw [updBT_other _ hu]
        rw [hits]
        exact hg.idxNodup u
      · intro u
        show (updBT s.activitiesByType tc _ u).expected
            = ((modifyActFirst s.activities act _).map (fun p => p.2.expectedByType u)).sum
        have hsum := sum_map_modify (fun x => x.expectedByType u)
          (fun x => { x with expectedByType := fun w => if w = tc then v else x.expectedByType w })
          hlook
        dsimp only at hsum
        by_cases hu : u = tc
        · rw [hu, updBT_self]
          have hel := elem_le_sum (fun x => x.expectedByType tc) hlook
          beta_reduce at hel
          rw [hu] at hsum
          have hif : (if tc = tc then v else a.expectedByType tc) = v := if_pos rfl
          rw [hif] at hsum
          have hE := hg.expEq tc
          show (s.activitiesByType tc).expected - a.expectedByType tc + v = _
          omega
        · rw [updBT_other _ hu]
          simp only [if_neg hu] at hsum
          have hE := hg.expEq u
          omega
      · intro p hp hpig u
        rcases mem_modifyActFirst hlook hp with hpm | hpm
        · exact hg.ignoredZero p hpm hpig u
        · rw [hpm] at hpig
          exact absurd hpig (by simp [higf])
  case resExpectBuild =>
    simp only [Option.bind_eq_bind, Option.bind_eq_some, Option.pure_def,
      Option.some.injEq] at h2
    obtain ⟨p, -, h2⟩ := h2
    rw [← h2]
    exact goodState_modify hg hlook (fun x => rfl) (fun x => rfl) (fun x => rfl)
  case resUnexpectBuild =>
    simp only [Option.bind_eq_bind, Option.bind_eq_some, Option.pure_def,
      Option.some.injEq] at h2
    obtain ⟨p, -, h2⟩ := h2
    rw [← h2]
    exact goodState_modify hg hlook (fun x => rfl) (fun x => rfl) (fun x => rfl)
  case resExpectSubstitution =>
    simp only [Option.bind_eq_bind, Option.bind_eq_some, Option.pure_def,
      Option.some.injEq] at h2
    obtain ⟨p, -, h2⟩ := h2
    rw [← h2]
    exact goodState_modify hg hlook (fun x => rfl) (fun x => rfl) (fun x => rfl)
  case resUnexpectSubstitution =>
    simp only [Option.bind_eq_bind, Option.bind_eq_some, Option.pure_def,
      Option.some.injEq] at h2
    obtain ⟨p, -, h2⟩ := h2
    rw [← h2]
    exact goodState_modify hg hlook (fun x => rfl) (fun x => rfl) (fun x => rfl)

lemma goodState_step {cfg : Cfg} {s : State} {c : Call} {s2 : State}
    (hg : GoodState s) (hf : freshOk s c = true) (h : step cfg s c = some s2) : GoodState s2 := by
  cases c with
  | start act lvl t label fields parent =>
    have hfresh : act ∉ s.its := by
      simpa [freshOk] using hf
    exact goodState_start hg hfresh h
  | stop act =>
    obtain rfl := Option.some.inj h
    exact goodState_stop hg
  | res act rt fields =>
    exact goodState_result hg h

lemma goodState_run {cfg : Cfg} {cs : List Call} {s s2 : State}
    (hg : GoodState s) (h : runCalls cfg s cs = some s2) : GoodState s2 := by
  induction cs generalizing s with
  | nil =>
    obtain rfl := Option.some.inj h
    exact hg
  | cons c cs ih =>
    unfold runCalls at h
    split at h
    · rename_i hfr
      cases hstep : step cfg s c with
      | none =>
        rw [hstep] at h
        exact Option.noConfusion h
      | some s1 =>
        rw [hstep] at h
        exact ih (goodState_step hg hfr hstep) h
    · exact Option.noConfusion h

lemma initState_good : GoodState initState := by
  refine ⟨?_, ?_, ?_, ?_, ?_, ?_, ?_⟩ <;>
    simp [initState, keysOf, lookupAct]

/-- Claim C8 (confirmed): under the precondition that every start-unit call
uses an id that is not currently open, after any call sequence every open
unit resolves through the flat id index and appears in exactly its own
kind's open-unit index; an id that is not open (in particular one whose
unit was stopped) resolves to nothing and appears in no kind's index. -/
theorem c8_index_consistency (cfg : Cfg) (calls : List Call) (s2 : State)
    (h : runCalls cfg initState calls = some s2) :
    ∀ act, (act ∈ s2.its →
        ∃ a, findAct s2 act = some a
          ∧ act ∈ (s2.activitiesByType a.type).its
          ∧ ∀ u, act ∈ (s2.activitiesByType u).its → u = a.type)
      ∧ (act ∉ s2.its → findAct s2 act = none ∧ ∀ u, act ∉ (s2.activitiesByType u).its) := by
  have hg := goodState_run initState_good h
  intro act
  constructor
  · intro hmem
    have hk : act ∈ keysOf s2.activities := (hg.itsIff act).mp hmem
    obtain ⟨a, hl⟩ := lookup_of_mem_keys hk
    have hfa : findAct s2 act = some a := by
      unfold findAct
      rw [if_pos hmem, hl]
    refine ⟨a, hfa, ?_, ?_⟩
    · exact (hg.idxIff a.type act).mpr ⟨a, hl, rfl⟩
    · intro u hu
      obtain ⟨b, hlb, hbt⟩ := (hg.idxIff u act).mp hu
      rw [hl] at hlb
      obtain rfl := Option.some.inj hlb
      exact hbt.symm
  · intro hnm
    refine ⟨findAct_none_of_not_mem hnm, ?_⟩
    intro u hu
    obtain ⟨b, hlb, -⟩ := (hg.idxIff u act).mp hu
    exact hnm ((hg.itsIff act).mpr (lookup_some_mem_keys hlb))

/-- Witness for C8's theorem: after the demonstration trace (which starts
unit 1, sets an expectation, and stops it), id 1 is open in no index. -/
theorem c8_index_consistency_witness :
    findAct c8demoState 1 = none
    ∧ ∀ u, 1 ∉ (c8demoState.activitiesByType u).its :=
  ((c8_index_consistency {} demoCalls c8demoState (by rfl)) 1).2 (by decide)

/-- Claim C10 (confirmed): at every state reachable (under the id-uniqueness
precondition on start-unit) the per-kind directly-set `expected` equals the
sum over open units of their `expectedByType` contribution for that kind;
hence each open unit's contribution is bounded by the field and the
subtractions in `resSetExpected` and `stopActivity` cannot underflow. -/
theorem c10_expected_sum (cfg : Cfg) (calls : List Call) (s2 : State)
    (h : runCalls cfg initState calls = some s2) :
    (∀ t, (s2.activitiesByType t).expected
        = (s2.activities.map (fun p => p.2.expectedByType t)).sum)
    ∧ ∀ act a t, findAct s2 act = some a →
        a.expectedByType t ≤ (s2.activitiesByType t).expected := by
  have hg := goodState_run initState_good h
  refine ⟨hg.expEq, ?_⟩
  intro act a t hfa
  rw [hg.expEq t]
  have hel := elem_le_sum (fun x => x.expectedByType t) (findAct_some_mem hfa).2
  beta_reduce at hel
  exact hel

/-- Witness for C10's theorem after the demonstration trace. -/
theorem c10_expected_sum_witness :
    (c10demoState.activitiesByType .actBuilds).expected
      = (c10demoState.activities.map (fun p => p.2.expectedByType .actBuilds)).sum :=
  (c10_expected_sum {} demoCalls c10demoState (by rfl)).1 .actBuilds
